import Mathlib

/-!
Shallow embedding of `src/clicker-game.ts` (a terminal incremental/clicker
game).  JavaScript numbers are modelled as exact rationals `ℚ`, following the
specification's data model which calls them real numbers; building counts are
modelled as `ℕ` (the spec: non-negative integers) and timestamps as `ℤ`
(milliseconds).  The mutable global `gameState` becomes explicit state
passing: every mutating function takes and returns a `GameState`.
-/

namespace Clicker

/-- The `Upgrade` interface of the source: a one-time purchase that
multiplies a building's production. -/
structure Upgrade where
  name : String
  purchased : Bool
  cost : ℚ
  productionMultiplier : ℚ
  description : String
  deriving Repr, DecidableEq

/-- The `Building` interface of the source. -/
structure Building where
  name : String
  count : ℕ
  baseCost : ℚ
  baseProduction : ℚ
  upgrades : List Upgrade
  deriving Repr, DecidableEq

/-- The `GameState` interface of the source. -/
structure GameState where
  points : ℚ
  totalPointsEarned : ℚ
  clickPower : ℚ
  buildings : List Building
  lastSaved : ℤ
  deriving Repr, DecidableEq

/-- The initial `gameState` literal of the source.  `Date.now()` at process
start is passed in as `now`. -/
def initialGameState (now : ℤ) : GameState :=
  { points := 0
    totalPointsEarned := 0
    clickPower := 1
    buildings :=
      [ { name := ("Cursor")
          count := 0
          baseCost := 15
          baseProduction := 1/10
          upgrades :=
            [ { name := ("Faster Clicking"), purchased := false, cost := 100,
                productionMultiplier := 2,
                description := ("Double the production of Cursors") },
              { name := ("Auto Clicker"), purchased := false, cost := 500,
                productionMultiplier := 3,
                description := ("Triple the production of Cursors") } ] },
        { name := ("Farm")
          count := 0
          baseCost := 100
          baseProduction := 1
          upgrades :=
            [ { name := ("Fertilizer"), purchased := false, cost := 1000,
                productionMultiplier := 2,
                description := ("Double the production of Farms") },
              { name := ("Irrigation"), purchased := false, cost := 5000,
                productionMultiplier := 3,
                description := ("Triple the production of Farms") } ] },
        { name := ("Factory")
          count := 0
          baseCost := 1100
          baseProduction := 8
          upgrades :=
            [ { name := ("Assembly Line"), purchased := false, cost := 12000,
                productionMultiplier := 2,
                description := ("Double the production of Factories") },
              { name := ("Automation"), purchased := false, cost := 60000,
                productionMultiplier := 3,
                description := ("Triple the production of Factories") } ] } ]
    lastSaved := now }

/-- Source `getBuildingCost`:
`Math.floor(building.baseCost * Math.pow(1.15, building.count))`. -/
def getBuildingCost (b : Building) : ℤ :=
  ⌊b.baseCost * (1.15 : ℚ) ^ b.count⌋

/-- Source `getBuildingProduction`: a running `multiplier` starts at 1 and is
multiplied by `productionMultiplier` of every purchased upgrade (a `for`
loop over `building.upgrades`, i.e. a left fold); the result is
`count * baseProduction * multiplier`. -/
def getBuildingProduction (b : Building) : ℚ :=
  let multiplier := b.upgrades.foldl
    (fun m u => if u.purchased then m * u.productionMultiplier else m) 1
  (b.count : ℚ) * b.baseProduction * multiplier

/-- Source `getTotalProduction`: `reduce` over the buildings, summing
`getBuildingProduction`, starting from 0. -/
def getTotalProduction (s : GameState) : ℚ :=
  s.buildings.foldl (fun total b => total + getBuildingProduction b) 0

/-- Source `click`: adds `clickPower` to both `points` and `totalPointsEarned`. -/
def click (s : GameState) : GameState :=
  { s with points := s.points + s.clickPower
           totalPointsEarned := s.totalPointsEarned + s.clickPower }

/-- Source `buyBuilding`: reads `buildings[index]` (an out-of-range index makes the
JS throw, modelled as `none`), computes the cost; if `points >= cost` it
debits `points`, increments that building's `count`, and returns `true`;
otherwise returns `false` with no mutation. -/
def buyBuilding (s : GameState) (index : ℕ) : Option (Bool × GameState) :=
  match s.buildings[index]? with
  | none => none
  | some b =>
    let cost := getBuildingCost b
    if (cost : ℚ) ≤ s.points then
      some (true,
        { s with points := s.points - (cost : ℚ)
                 buildings := s.buildings.set index { b with count := b.count + 1 } })
    else
      some (false, s)

/-- Source `buyUpgrade`: reads `buildings[buildingIndex].upgrades[upgradeIndex]`
(out-of-range throws, modelled as `none`); if the upgrade is not yet
purchased and `points >= upgrade.cost`, debits `points`, sets `purchased`
to `true` and returns `true`; otherwise returns `false` with no mutation. -/
def buyUpgrade (s : GameState) (buildingIndex upgradeIndex : ℕ) :
    Option (Bool × GameState) :=
  match s.buildings[buildingIndex]? with
  | none => none
  | some b =>
    match b.upgrades[upgradeIndex]? with
    | none => none
    | some u =>
      if u.purchased = false ∧ u.cost ≤ s.points then
        let u2 := { u with purchased := true }
        let b2 := { b with upgrades := b.upgrades.set upgradeIndex u2 }
        some (true,
          { s with points := s.points - u.cost
                   buildings := s.buildings.set buildingIndex b2 })
      else
        some (false, s)

/-- Source `gameLoop` (the numeric part of one tick): given the module-level
`lastUpdate` and the current wall clock `now` (both in milliseconds),
computes `elapsed = (now - lastUpdate) / 1000` seconds, adds
`getTotalProduction() * elapsed` to both `points` and `totalPointsEarned`,
and stores `now` into `lastUpdate` (returned as the second component).
The display redraw is I/O and carries no state. -/
def gameLoop (s : GameState) (lastUpdate now : ℤ) : GameState × ℤ :=
  let elapsed : ℚ := ((now : ℚ) - (lastUpdate : ℚ)) / 1000
  let pointsGained := getTotalProduction s * elapsed
  ({ s with points := s.points + pointsGained
            totalPointsEarned := s.totalPointsEarned + pointsGained }, now)

/-- Unfolding the `for` loop of `getBuildingProduction`: the left fold is the
start value times the product of multipliers of purchased upgrades. -/
lemma foldl_multiplier (us : List Upgrade) (a : ℚ) :
    us.foldl (fun m u => if u.purchased then m * u.productionMultiplier else m) a
      = a * ((us.filter (fun u => u.purchased)).map Upgrade.productionMultiplier).prod := by
  induction us generalizing a with
  | nil => simp
  | cons u us ih =>
    by_cases hu : u.purchased <;> simp [List.foldl_cons, List.filter_cons, hu, ih, mul_assoc]

/-- Unfolding the `reduce` of `getTotalProduction`. -/
lemma foldl_total (bs : List Building) (a : ℚ) :
    bs.foldl (fun total b => total + getBuildingProduction b) a
      = a + (bs.map getBuildingProduction).sum := by
  induction bs generalizing a with
  | nil => simp
  | cons b bs ih => simp [List.foldl_cons, ih, add_assoc]

/-- C6: `cost(building) = floor(baseCost * 1.15 ^ count)`; the cost at
`count = 0` is `baseCost` itself (the base costs are integers); and one more
purchase raises the cost by 15% up to floor-rounding:
`1.15 * cost(n) - 1 < cost(n+1) < 1.15 * cost(n) + 1.15`. -/
theorem buildingCost_formula (b : Building) :
    getBuildingCost b = ⌊b.baseCost * (1.15 : ℚ) ^ b.count⌋ ∧
    (b.count = 0 → ∀ n : ℤ, b.baseCost = (n : ℚ) →
      (getBuildingCost b : ℚ) = b.baseCost) ∧
    ((1.15 : ℚ) * (getBuildingCost b : ℚ) - 1
        < (getBuildingCost { b with count := b.count + 1 } : ℚ) ∧
      (getBuildingCost { b with count := b.count + 1 } : ℚ)
        < (1.15 : ℚ) * (getBuildingCost b : ℚ) + 1.15) := by
  refine ⟨rfl, ?_, ?_⟩
  · intro h0 n hn
    rw [getBuildingCost, h0, pow_zero, mul_one, hn, Int.floor_intCast]
  · set x : ℚ := b.baseCost * (1.15 : ℚ) ^ b.count with hx
    have hbump : getBuildingCost { b with count := b.count + 1 } = ⌊x * 1.15⌋ := by
      rw [getBuildingCost, hx, pow_succ, mul_assoc]
    rw [hbump, getBuildingCost, ← hx]
    have h1 : x * 1.15 - 1 < (⌊x * 1.15⌋ : ℚ) := Int.sub_one_lt_floor (x * 1.15)
    have h2 : (⌊x⌋ : ℚ) ≤ x := Int.floor_le x
    have h3 : x < (⌊x⌋ : ℚ) + 1 := Int.lt_floor_add_one x
    have h4 : (⌊x * 1.15⌋ : ℚ) ≤ x * 1.15 := Int.floor_le (x * 1.15)
    constructor <;> linarith

/-- A concrete building used by witnesses: the initial Cursor with no
upgrades listed. -/
def sampleCursor : Building :=
  { name := ("Cursor")
    count := 0
    baseCost := 15
    baseProduction := 1/10
    upgrades := [] }

/-- A concrete building used by witnesses: a Cursor with `count = 3` whose
first upgrade has been purchased. -/
def sampleCursorUpgraded : Building :=
  { name := ("Cursor")
    count := 3
    baseCost := 15
    baseProduction := 1/10
    upgrades :=
      [ { name := ("Faster Clicking"), purchased := true, cost := 100,
          productionMultiplier := 2,
          description := ("Double the production of Cursors") } ] }

/-- A concrete one-building state used by witnesses. -/
def sampleState : GameState :=
  { points := 0
    totalPointsEarned := 0
    clickPower := 1
    buildings := [sampleCursorUpgraded]
    lastSaved := 0 }

/-- Witness for C6 on the initial Cursor building: cost at count 0 is the
base cost 15, and the growth bounds hold there. -/
theorem buildingCost_formula_witness :
    let b : Building := sampleCursor
    getBuildingCost b = ⌊b.baseCost * (1.15 : ℚ) ^ b.count⌋ ∧
    (b.count = 0 → ∀ n : ℤ, b.baseCost = (n : ℚ) →
      (getBuildingCost b : ℚ) = b.baseCost) ∧
    ((1.15 : ℚ) * (getBuildingCost b : ℚ) - 1
        < (getBuildingCost { b with count := b.count + 1 } : ℚ) ∧
      (getBuildingCost { b with count := b.count + 1 } : ℚ)
        < (1.15 : ℚ) * (getBuildingCost b : ℚ) + 1.15) :=
  buildingCost_formula _

/-- C7: `production(building) = count * baseProduction * multiplier`, with
`multiplier` the product of `productionMultiplier` over the purchased
upgrades; production is 0 whenever `count = 0`; and `totalProduction` is the
sum of `production` over the buildings. -/
theorem production_formula (b : Building) (s : GameState) :
    getBuildingProduction b
      = (b.count : ℚ) * b.baseProduction *
          ((b.upgrades.filter (fun u => u.purchased)).map
            Upgrade.productionMultiplier).prod ∧
    (b.count = 0 → getBuildingProduction b = 0) ∧
    getTotalProduction s = (s.buildings.map getBuildingProduction).sum := by
  have hb : getBuildingProduction b
      = (b.count : ℚ) * b.baseProduction *
          ((b.upgrades.filter (fun u => u.purchased)).map
            Upgrade.productionMultiplier).prod := by
    rw [getBuildingProduction, foldl_multiplier, one_mul]
  refine ⟨hb, ?_, ?_⟩
  · intro h0
    rw [getBuildingProduction, h0]
    simp
  · rw [getTotalProduction, foldl_total, zero_add]

/-- Witness for C7 on a Cursor with one purchased upgrade inside a
one-building state. -/
theorem production_formula_witness :
    let b : Building := sampleCursorUpgraded
    let s : GameState := sampleState
    getBuildingProduction b
      = (b.count : ℚ) * b.baseProduction *
          ((b.upgrades.filter (fun u => u.purchased)).map
            Upgrade.productionMultiplier).prod ∧
    (b.count = 0 → getBuildingProduction b = 0) ∧
    getTotalProduction s = (s.buildings.map getBuildingProduction).sum :=
  production_formula _ _

/-- The `purchased` flag of upgrade `j` of building `i`, if both exist. -/
def upgradeFlag (s : GameState) (i j : ℕ) : Option Bool :=
  s.buildings[i]?.bind (fun b => (b.upgrades[j]?).map (fun u => u.purchased))

/-- A concrete state used by witnesses: the initial state with 1000 points. -/
def richState : GameState := { initialGameState 0 with points := 1000 }

/-- Unfolding `buyBuilding` at a valid index. -/
lemma buyBuilding_eq (s : GameState) (i : ℕ) (h : i < s.buildings.length) :
    buyBuilding s i =
      if ((getBuildingCost (s.buildings.get ⟨i, h⟩)) : ℚ) ≤ s.points then
        some (true, { s with points := s.points - ((getBuildingCost (s.buildings.get ⟨i, h⟩)) : ℚ), buildings := s.buildings.set i { s.buildings.get ⟨i, h⟩ with count := (s.buildings.get ⟨i, h⟩).count + 1 } })
      else some (false, s) := by
  have he : s.buildings[i]? = some (s.buildings.get ⟨i, h⟩) := by
    rw [List.get_eq_getElem]
    exact List.getElem?_eq_getElem h
  rw [buyBuilding, he]

/-- C1: at any valid index, `buyBuilding` succeeds iff `points >= cost`; on
success it debits `points` by exactly the cost and increments the count by
exactly 1; on failure it performs no mutation; at `points == cost` it
succeeds leaving `points == 0`; at `points == cost - 1` it fails leaving the
state unchanged. -/
theorem buyBuilding_correct (s : GameState) (i : ℕ) (h : i < s.buildings.length) :
    ∃ ok s2, buyBuilding s i = some (ok, s2) ∧
      (ok = true ↔ ((getBuildingCost (s.buildings.get ⟨i, h⟩)) : ℚ) ≤ s.points) ∧
      (ok = true →
        s2.points = s.points - ((getBuildingCost (s.buildings.get ⟨i, h⟩)) : ℚ) ∧
        s2.buildings[i]? = some { s.buildings.get ⟨i, h⟩ with
          count := (s.buildings.get ⟨i, h⟩).count + 1 }) ∧
      (ok = false → s2 = s) ∧
      (s.points = ((getBuildingCost (s.buildings.get ⟨i, h⟩)) : ℚ) →
        ok = true ∧ s2.points = 0) ∧
      (s.points = ((getBuildingCost (s.buildings.get ⟨i, h⟩)) : ℚ) - 1 →
        ok = false ∧ s2 = s) := by
  have key := buyBuilding_eq s i h
  by_cases hc : ((getBuildingCost (s.buildings.get ⟨i, h⟩)) : ℚ) ≤ s.points
  · rw [if_pos hc] at key
    refine ⟨true, _, key, ?_, ?_, ?_, ?_, ?_⟩
    · exact iff_of_true rfl hc
    · intro _
      exact ⟨rfl, List.getElem?_set_self h⟩
    · intro hfalse
      cases hfalse
    · intro hpe
      refine ⟨rfl, ?_⟩
      show s.points - ((getBuildingCost (s.buildings.get ⟨i, h⟩)) : ℚ) = 0
      rw [hpe, sub_self]
    · intro hpe
      exfalso
      rw [hpe] at hc
      linarith
  · rw [if_neg hc] at key
    refine ⟨false, s, key, ?_, ?_, ?_, ?_, ?_⟩
    · exact iff_of_false Bool.false_ne_true hc
    · intro htrue
      cases htrue
    · intro _
      rfl
    · intro hpe
      exact absurd (le_of_eq hpe.symm) hc
    · intro _
      exact ⟨rfl, rfl⟩

/-- Building 0 of `richState`, the Cursor. -/
def cursor0 : Building := richState.buildings.get ⟨0, by decide⟩

/-- Witness for C1: in the initial state with 1000 points, buying building 0
(a Cursor, cost 15) succeeds and debits exactly 15. -/
theorem buyBuilding_correct_witness :
    0 < richState.buildings.length ∧
    (∃ ok s2, buyBuilding richState 0 = some (ok, s2) ∧
      (ok = true ↔ ((getBuildingCost cursor0) : ℚ) ≤ richState.points) ∧
      (ok = true →
        s2.points = richState.points - ((getBuildingCost cursor0) : ℚ) ∧
        s2.buildings[0]? = some { cursor0 with count := cursor0.count + 1 }) ∧
      (ok = false → s2 = richState) ∧
      (richState.points = ((getBuildingCost cursor0) : ℚ) →
        ok = true ∧ s2.points = 0) ∧
      (richState.points = ((getBuildingCost cursor0) : ℚ) - 1 →
        ok = false ∧ s2 = richState)) :=
  ⟨by decide, buyBuilding_correct richState 0 (by decide)⟩

/-- Unfolding `buyUpgrade` at valid indices. -/
lemma buyUpgrade_eq (s : GameState) (i j : ℕ) (hi : i < s.buildings.length)
    (hj : j < (s.buildings.get ⟨i, hi⟩).upgrades.length) :
    buyUpgrade s i j =
      (let b := s.buildings.get ⟨i, hi⟩
       let u := b.upgrades.get ⟨j, hj⟩
       if u.purchased = false ∧ u.cost ≤ s.points then
        some (true, { s with points := s.points - u.cost, buildings := s.buildings.set i { b with upgrades := b.upgrades.set j { u with purchased := true } } })
       else some (false, s)) := by
  have he : s.buildings[i]? = some (s.buildings.get ⟨i, hi⟩) :=
    List.getElem?_eq_getElem hi
  have hu : (s.buildings.get ⟨i, hi⟩).upgrades[j]?
      = some ((s.buildings.get ⟨i, hi⟩).upgrades.get ⟨j, hj⟩) :=
    List.getElem?_eq_getElem hj
  rw [buyUpgrade, he]
  dsimp only
  rw [hu]

/-- An upgrade whose `purchased` flag is already `true` can never be bought
again: `buyUpgrade` returns `false` and leaves the state unchanged,
whatever `points` is. -/
lemma buyUpgrade_already (s : GameState) (i j : ℕ)
    (hflag : upgradeFlag s i j = some true) :
    buyUpgrade s i j = some (false, s) := by
  rw [upgradeFlag] at hflag
  cases hb : s.buildings[i]? with
  | none => rw [hb] at hflag; cases hflag
  | some b =>
    rw [hb] at hflag
    dsimp only [Option.bind] at hflag
    cases hu : b.upgrades[j]? with
    | none => rw [hu] at hflag; cases hflag
    | some u =>
      rw [hu] at hflag
      have hup : u.purchased = true := by
        simpa using hflag
      rw [buyUpgrade, hb]
      dsimp only
      rw [hu]
      dsimp only
      rw [if_neg]
      intro hcon
      rw [hup] at hcon
      cases hcon.1

/-- C2: at valid indices, `buyUpgrade` succeeds iff the upgrade is not yet
purchased and `points >= cost`; on success it debits `points` by the cost
and sets the `purchased` flag; on failure it performs no mutation; and a
second attempt on the same upgrade fails regardless of the funds then
available, leaving the state unchanged. -/
theorem buyUpgrade_correct (s : GameState) (i j : ℕ) (hi : i < s.buildings.length)
    (hj : j < (s.buildings.get ⟨i, hi⟩).upgrades.length) :
    ∃ ok s2, buyUpgrade s i j = some (ok, s2) ∧
      (ok = true ↔
        ((s.buildings.get ⟨i, hi⟩).upgrades.get ⟨j, hj⟩).purchased = false ∧
        ((s.buildings.get ⟨i, hi⟩).upgrades.get ⟨j, hj⟩).cost ≤ s.points) ∧
      (ok = true →
        s2.points = s.points - ((s.buildings.get ⟨i, hi⟩).upgrades.get ⟨j, hj⟩).cost ∧
        upgradeFlag s2 i j = some true) ∧
      (ok = false → s2 = s) ∧
      (ok = true → ∀ p2 : ℚ,
        buyUpgrade { s2 with points := p2 } i j = some (false, { s2 with points := p2 })) := by
  have key := buyUpgrade_eq s i j hi hj
  dsimp only at key
  by_cases hc : ((s.buildings.get ⟨i, hi⟩).upgrades.get ⟨j, hj⟩).purchased = false ∧
      ((s.buildings.get ⟨i, hi⟩).upgrades.get ⟨j, hj⟩).cost ≤ s.points
  · rw [if_pos hc] at key
    refine ⟨true, _, key, iff_of_true rfl hc, ?_, ?_, ?_⟩
    · intro _
      refine ⟨rfl, ?_⟩
      show (upgradeFlag _ i j) = some true
      rw [upgradeFlag]
      show Option.bind ((s.buildings.set i _)[i]?) _ = some true
      rw [List.getElem?_set_self hi]
      show Option.map _ (((s.buildings.get ⟨i, hi⟩).upgrades.set j _)[j]?) = some true
      rw [List.getElem?_set_self hj]
      rfl
    · intro hfalse
      cases hfalse
    · intro _ p2
      apply buyUpgrade_already
      rw [upgradeFlag]
      show Option.bind ((s.buildings.set i _)[i]?) _ = some true
      rw [List.getElem?_set_self hi]
      show Option.map _ (((s.buildings.get ⟨i, hi⟩).upgrades.set j _)[j]?) = some true
      rw [List.getElem?_set_self hj]
      rfl
  · rw [if_neg hc] at key
    refine ⟨false, s, key, iff_of_false Bool.false_ne_true hc, ?_, ?_, ?_⟩
    · intro htrue
      cases htrue
    · intro _
      rfl
    · intro htrue
      cases htrue

/-- Upgrade 0 of building 0 of `richState`: the Faster Clicking upgrade. -/
def fasterClicking0 : Upgrade :=
  (richState.buildings.get ⟨0, by decide⟩).upgrades.get ⟨0, by decide⟩

/-- Witness for C2: in the initial state with 1000 points, buying upgrade 0
of building 0 (cost 100, not yet purchased) succeeds, and a second attempt
fails regardless of funds. -/
theorem buyUpgrade_correct_witness :
    0 < richState.buildings.length ∧
    0 < (richState.buildings.get ⟨0, by decide⟩).upgrades.length ∧
    (∃ ok s2, buyUpgrade richState 0 0 = some (ok, s2) ∧
      (ok = true ↔ fasterClicking0.purchased = false ∧
        fasterClicking0.cost ≤ richState.points) ∧
      (ok = true →
        s2.points = richState.points - fasterClicking0.cost ∧
        upgradeFlag s2 0 0 = some true) ∧
      (ok = false → s2 = richState) ∧
      (ok = true → ∀ p2 : ℚ,
        buyUpgrade { s2 with points := p2 } 0 0 = some (false, { s2 with points := p2 }))) :=
  ⟨by decide, by decide, buyUpgrade_correct richState 0 0 (by decide) (by decide)⟩

/-- C10: a successful `buyBuilding i` changes only `points` and the `count`
of building `i`, and a successful `buyUpgrade i j` changes only `points`
and the `purchased` flag of upgrade `j` of building `i`: in both cases
`totalPointsEarned`, `clickPower`, `lastSaved`, every other building and
every other field are left unchanged. -/
theorem purchase_frame (s : GameState) (i j : ℕ) (hi : i < s.buildings.length)
    (hj : j < (s.buildings.get ⟨i, hi⟩).upgrades.length) :
    (∀ s2, buyBuilding s i = some (true, s2) →
      s2.totalPointsEarned = s.totalPointsEarned ∧
      s2.clickPower = s.clickPower ∧
      s2.lastSaved = s.lastSaved ∧
      (∀ k, k ≠ i → s2.buildings[k]? = s.buildings[k]?) ∧
      (∃ b2, s2.buildings[i]? = some b2 ∧
        b2.name = (s.buildings.get ⟨i, hi⟩).name ∧
        b2.baseCost = (s.buildings.get ⟨i, hi⟩).baseCost ∧
        b2.baseProduction = (s.buildings.get ⟨i, hi⟩).baseProduction ∧
        b2.upgrades = (s.buildings.get ⟨i, hi⟩).upgrades)) ∧
    (∀ s2, buyUpgrade s i j = some (true, s2) →
      s2.totalPointsEarned = s.totalPointsEarned ∧
      s2.clickPower = s.clickPower ∧
      s2.lastSaved = s.lastSaved ∧
      (∀ k, k ≠ i → s2.buildings[k]? = s.buildings[k]?) ∧
      (∃ b2, s2.buildings[i]? = some b2 ∧
        b2.name = (s.buildings.get ⟨i, hi⟩).name ∧
        b2.count = (s.buildings.get ⟨i, hi⟩).count ∧
        b2.baseCost = (s.buildings.get ⟨i, hi⟩).baseCost ∧
        b2.baseProduction = (s.buildings.get ⟨i, hi⟩).baseProduction ∧
        (∀ k, k ≠ j → b2.upgrades[k]? = (s.buildings.get ⟨i, hi⟩).upgrades[k]?) ∧
        (∃ u2, b2.upgrades[j]? = some u2 ∧
          u2.name = ((s.buildings.get ⟨i, hi⟩).upgrades.get ⟨j, hj⟩).name ∧
          u2.cost = ((s.buildings.get ⟨i, hi⟩).upgrades.get ⟨j, hj⟩).cost ∧
          u2.productionMultiplier
            = ((s.buildings.get ⟨i, hi⟩).upgrades.get ⟨j, hj⟩).productionMultiplier ∧
          u2.description = ((s.buildings.get ⟨i, hi⟩).upgrades.get ⟨j, hj⟩).description))) := by
  constructor
  · intro s2 hbb
    rw [buyBuilding_eq s i hi] at hbb
    by_cases hc : ((getBuildingCost (s.buildings.get ⟨i, hi⟩)) : ℚ) ≤ s.points
    · rw [if_pos hc] at hbb
      simp only [Option.some.injEq, Prod.mk.injEq] at hbb
      obtain ⟨-, hs2⟩ := hbb
      subst hs2
      refine ⟨rfl, rfl, rfl, ?_, ?_⟩
      · intro k hk
        exact List.getElem?_set_ne (Ne.symm hk)
      · exact ⟨_, List.getElem?_set_self hi, rfl, rfl, rfl, rfl⟩
    · rw [if_neg hc] at hbb
      simp only [Option.some.injEq, Prod.mk.injEq] at hbb
      cases hbb.1
  · intro s2 hbu
    have key := buyUpgrade_eq s i j hi hj
    dsimp only at key
    rw [key] at hbu
    by_cases hc : ((s.buildings.get ⟨i, hi⟩).upgrades.get ⟨j, hj⟩).purchased = false ∧
        ((s.buildings.get ⟨i, hi⟩).upgrades.get ⟨j, hj⟩).cost ≤ s.points
    · rw [if_pos hc] at hbu
      simp only [Option.some.injEq, Prod.mk.injEq] at hbu
      obtain ⟨-, hs2⟩ := hbu
      subst hs2
      refine ⟨rfl, rfl, rfl, ?_, ?_⟩
      · intro k hk
        exact List.getElem?_set_ne (Ne.symm hk)
      · refine ⟨_, List.getElem?_set_self hi, rfl, rfl, rfl, rfl, ?_, ?_⟩
        · intro k hk
          exact List.getElem?_set_ne (Ne.symm hk)
        · exact ⟨_, List.getElem?_set_self hj, rfl, rfl, rfl, rfl⟩
    · rw [if_neg hc] at hbu
      simp only [Option.some.injEq, Prod.mk.injEq] at hbu
      cases hbu.1

/-- Witness for C10 at `richState`, building 0, upgrade 0: both purchases
succeed there and the frame conditions hold. -/
theorem purchase_frame_witness :
    0 < richState.buildings.length ∧
    0 < (richState.buildings.get ⟨0, by decide⟩).upgrades.length ∧
    ((∀ s2, buyBuilding richState 0 = some (true, s2) →
      s2.totalPointsEarned = richState.totalPointsEarned ∧
      s2.clickPower = richState.clickPower ∧
      s2.lastSaved = richState.lastSaved ∧
      (∀ k, k ≠ 0 → s2.buildings[k]? = richState.buildings[k]?) ∧
      (∃ b2, s2.buildings[0]? = some b2 ∧
        b2.name = cursor0.name ∧
        b2.baseCost = cursor0.baseCost ∧
        b2.baseProduction = cursor0.baseProduction ∧
        b2.upgrades = cursor0.upgrades)) ∧
    (∀ s2, buyUpgrade richState 0 0 = some (true, s2) →
      s2.totalPointsEarned = richState.totalPointsEarned ∧
      s2.clickPower = richState.clickPower ∧
      s2.lastSaved = richState.lastSaved ∧
      (∀ k, k ≠ 0 → s2.buildings[k]? = richState.buildings[k]?) ∧
      (∃ b2, s2.buildings[0]? = some b2 ∧
        b2.name = cursor0.name ∧
        b2.count = cursor0.count ∧
        b2.baseCost = cursor0.baseCost ∧
        b2.baseProduction = cursor0.baseProduction ∧
        (∀ k, k ≠ 0 → b2.upgrades[k]? = cursor0.upgrades[k]?) ∧
        (∃ u2, b2.upgrades[0]? = some u2 ∧
          u2.name = fasterClicking0.name ∧
          u2.cost = fasterClicking0.cost ∧
          u2.productionMultiplier = fasterClicking0.productionMultiplier ∧
          u2.description = fasterClicking0.description)))) :=
  ⟨by decide, by decide, purchase_frame richState 0 0 (by decide) (by decide)⟩

/-- Well-formedness of a state: click power, base productions and upgrade
multipliers are non-negative.  The shipped configuration
(`initialGameState`) satisfies this with positive constants. -/
def WF (s : GameState) : Prop :=
  0 ≤ s.clickPower ∧
  ∀ b ∈ s.buildings, 0 ≤ b.baseProduction ∧
    ∀ u ∈ b.upgrades, 0 ≤ u.productionMultiplier

instance (s : GameState) : Decidable (WF s) :=
  inferInstanceAs (Decidable (0 ≤ s.clickPower ∧
    ∀ b ∈ s.buildings, 0 ≤ b.baseProduction ∧
      ∀ u ∈ b.upgrades, 0 ≤ u.productionMultiplier))

lemma multiplier_nonneg (us : List Upgrade)
    (h : ∀ u ∈ us, 0 ≤ u.productionMultiplier) :
    0 ≤ ((us.filter (fun u => u.purchased)).map Upgrade.productionMultiplier).prod := by
  apply List.prod_nonneg
  intro x hx
  simp only [List.mem_map] at hx
  obtain ⟨u, hu, rfl⟩ := hx
  exact h u (List.mem_of_mem_filter hu)

lemma getBuildingProduction_nonneg (b : Building) (hb : 0 ≤ b.baseProduction)
    (hu : ∀ u ∈ b.upgrades, 0 ≤ u.productionMultiplier) :
    0 ≤ getBuildingProduction b := by
  rw [getBuildingProduction]
  rw [foldl_multiplier, one_mul]
  exact mul_nonneg (mul_nonneg (Nat.cast_nonneg _) hb) (multiplier_nonneg _ hu)

lemma getTotalProduction_nonneg (s : GameState) (h : WF s) :
    0 ≤ getTotalProduction s := by
  rw [getTotalProduction, foldl_total, zero_add]
  apply List.sum_nonneg
  intro x hx
  simp only [List.mem_map] at hx
  obtain ⟨b, hb, rfl⟩ := hx
  exact getBuildingProduction_nonneg b ((h.2 b hb).1) ((h.2 b hb).2)

/-- Unfolding `upgradeFlag` on an explicit state literal. -/
lemma upgradeFlag_state_set (p t c : ℚ) (ls : ℤ) (bs : List Building) (a d : ℕ) :
    upgradeFlag { points := p, totalPointsEarned := t, clickPower := c, buildings := bs, lastSaved := ls } a d
      = bs[a]?.bind (fun x => (x.upgrades[d]?).map (fun u => u.purchased)) := rfl

/-- Replacing building `i` by one with the same upgrade list leaves every
purchased flag unchanged. -/
lemma flag_eq_of_set (bs : List Building) (i : ℕ) (b b2 : Building)
    (hb : bs[i]? = some b) (hup : b2.upgrades = b.upgrades) (a d : ℕ) :
    ((bs.set i b2)[a]?).bind (fun x => (x.upgrades[d]?).map (fun u => u.purchased))
      = (bs[a]?).bind (fun x => (x.upgrades[d]?).map (fun u => u.purchased)) := by
  by_cases hai : i = a
  · subst hai
    obtain ⟨hlen, -⟩ := List.getElem?_eq_some.mp hb
    rw [List.getElem?_set_self hlen, hb]
    dsimp only [Option.bind]
    rw [hup]
  · rw [List.getElem?_set_ne hai]

/-- Setting one upgrade's flag to `true` never turns a `true` flag `false`. -/
lemma flag_mono_of_set_upgrade (bs : List Building) (i j : ℕ) (b : Building)
    (u : Upgrade) (hb : bs[i]? = some b) (hu : b.upgrades[j]? = some u) (a d : ℕ)
    (htrue : (bs[a]?).bind (fun x => (x.upgrades[d]?).map (fun y => y.purchased))
      = some true) :
    (((bs.set i { b with upgrades := b.upgrades.set j { u with purchased := true } })[a]?).bind
      (fun x => (x.upgrades[d]?).map (fun y => y.purchased))) = some true := by
  by_cases hai : i = a
  · subst hai
    obtain ⟨hlen, -⟩ := List.getElem?_eq_some.mp hb
    rw [List.getElem?_set_self hlen]
    rw [hb] at htrue
    dsimp only [Option.bind] at htrue ⊢
    by_cases hjd : j = d
    · subst hjd
      obtain ⟨hjlen, -⟩ := List.getElem?_eq_some.mp hu
      rw [List.getElem?_set_self hjlen]
      rfl
    · rw [List.getElem?_set_ne hjd]
      exact htrue
  · rw [List.getElem?_set_ne hai]
    exact htrue

/-- The invariant-preservation property of a state `s`: every mutating
operation keeps `points` non-negative (a committed purchase in particular),
never decreases `totalPointsEarned`, and never turns an upgrade's
`purchased` flag from `true` back to `false`. -/
def PreservesInvariants (s : GameState) : Prop :=
  (0 ≤ (click s).points ∧
    s.totalPointsEarned ≤ (click s).totalPointsEarned ∧
    ∀ a d, upgradeFlag (click s) a d = upgradeFlag s a d) ∧
  (∀ i ok s2, buyBuilding s i = some (ok, s2) →
    0 ≤ s2.points ∧
    s.totalPointsEarned ≤ s2.totalPointsEarned ∧
    ∀ a d, upgradeFlag s a d = some true → upgradeFlag s2 a d = some true) ∧
  (∀ i j ok s2, buyUpgrade s i j = some (ok, s2) →
    0 ≤ s2.points ∧
    s.totalPointsEarned ≤ s2.totalPointsEarned ∧
    ∀ a d, upgradeFlag s a d = some true → upgradeFlag s2 a d = some true) ∧
  (∀ lastUpdate now : ℤ, lastUpdate ≤ now →
    0 ≤ (gameLoop s lastUpdate now).1.points ∧
    s.totalPointsEarned ≤ (gameLoop s lastUpdate now).1.totalPointsEarned ∧
    ∀ a d, upgradeFlag (gameLoop s lastUpdate now).1 a d = upgradeFlag s a d)

/-- C3: every mutating operation — `click`, `buyBuilding`, `buyUpgrade`,
and a tick whose elapsed time is non-negative — preserves the invariants:
`points` stays non-negative (in particular after a committed purchase),
`totalPointsEarned` never decreases, and no `purchased` flag goes from
`true` back to `false`. -/
theorem mutators_preserve_invariants (s : GameState) (hwf : WF s)
    (hp : 0 ≤ s.points) : PreservesInvariants s := by
  refine ⟨⟨add_nonneg hp hwf.1, le_add_of_nonneg_right hwf.1, fun a d => rfl⟩,
    ?_, ?_, ?_⟩
  · intro i ok s2 hbb
    rw [buyBuilding] at hbb
    cases hb : s.buildings[i]? with
    | none => rw [hb] at hbb; cases hbb
    | some b =>
      rw [hb] at hbb
      dsimp only at hbb
      by_cases hc : ((getBuildingCost b) : ℚ) ≤ s.points
      · rw [if_pos hc] at hbb
        simp only [Option.some.injEq, Prod.mk.injEq] at hbb
        obtain ⟨-, hs2⟩ := hbb
        subst hs2
        refine ⟨sub_nonneg.mpr hc, le_refl _, ?_⟩
        intro a d htrue
        rw [upgradeFlag] at htrue
        rw [upgradeFlag_state_set,
          flag_eq_of_set s.buildings i b { b with count := b.count + 1 } hb rfl a d]
        exact htrue
      · rw [if_neg hc] at hbb
        simp only [Option.some.injEq, Prod.mk.injEq] at hbb
        obtain ⟨-, hs2⟩ := hbb
        subst hs2
        exact ⟨hp, le_refl _, fun a d htrue => htrue⟩
  · intro i j ok s2 hbu
    rw [buyUpgrade] at hbu
    cases hb : s.buildings[i]? with
    | none => rw [hb] at hbu; cases hbu
    | some b =>
      rw [hb] at hbu
      dsimp only at hbu
      cases hu : b.upgrades[j]? with
      | none => rw [hu] at hbu; cases hbu
      | some u =>
        rw [hu] at hbu
        dsimp only at hbu
        by_cases hc : u.purchased = false ∧ u.cost ≤ s.points
        · rw [if_pos hc] at hbu
          simp only [Option.some.injEq, Prod.mk.injEq] at hbu
          obtain ⟨-, hs2⟩ := hbu
          subst hs2
          refine ⟨sub_nonneg.mpr hc.2, le_refl _, ?_⟩
          intro a d htrue
          rw [upgradeFlag] at htrue
          rw [upgradeFlag_state_set]
          exact flag_mono_of_set_upgrade s.buildings i j b u hb hu a d htrue
        · rw [if_neg hc] at hbu
          simp only [Option.some.injEq, Prod.mk.injEq] at hbu
          obtain ⟨-, hs2⟩ := hbu
          subst hs2
          exact ⟨hp, le_refl _, fun a d htrue => htrue⟩
  · intro lastUpdate now hln
    have helapsed : (0 : ℚ) ≤ ((now : ℚ) - (lastUpdate : ℚ)) / 1000 := by
      have hcast : (lastUpdate : ℚ) ≤ (now : ℚ) := Int.cast_le.mpr hln
      have : (0 : ℚ) ≤ (now : ℚ) - (lastUpdate : ℚ) := by linarith
      positivity
    have hgain : 0 ≤ getTotalProduction s * (((now : ℚ) - (lastUpdate : ℚ)) / 1000) :=
      mul_nonneg (getTotalProduction_nonneg s hwf) helapsed
    rw [gameLoop]
    dsimp only
    exact ⟨add_nonneg hp hgain, le_add_of_nonneg_right hgain, fun a d => rfl⟩

/-- Witness for C3 at the initial state with 1000 points. -/
theorem mutators_preserve_invariants_witness :
    WF richState ∧ (0 : ℚ) ≤ richState.points ∧ PreservesInvariants richState :=
  ⟨by with_unfolding_all decide, by with_unfolding_all decide,
    mutators_preserve_invariants richState (by with_unfolding_all decide)
      (by with_unfolding_all decide)⟩

/-- C8: one tick credits exactly `getTotalProduction() * elapsed` to both
`points` and `totalPointsEarned`, where `elapsed = (now - lastUpdate)/1000`
is the wall-clock time in seconds since the previous tick — not a fixed
nominal interval — and `lastUpdate` is then set to `now`.  The statement is
universally quantified over `lastUpdate ≤ now` with no bound: arbitrarily
long pauses are credited in full. -/
theorem gameLoop_tick_credit (s : GameState) (lastUpdate now : ℤ) :
    (gameLoop s lastUpdate now).1.points
      = s.points + getTotalProduction s * (((now : ℚ) - (lastUpdate : ℚ)) / 1000) ∧
    (gameLoop s lastUpdate now).1.totalPointsEarned
      = s.totalPointsEarned
        + getTotalProduction s * (((now : ℚ) - (lastUpdate : ℚ)) / 1000) ∧
    (gameLoop s lastUpdate now).2 = now :=
  ⟨rfl, rfl, rfl⟩

/-- The JSON documents `JSON.stringify` writes and `JSON.parse` returns. -/
inductive Json where
  | str (s : String)
  | num (q : ℚ)
  | bool (b : Bool)
  | null
  | arr (elems : List Json)
  | obj (fields : List (String × Json))

def Json.asStr : Json → Option String
  | .str s => some s
  | _ => none

def Json.asNum : Json → Option ℚ
  | .num q => some q
  | _ => none

def Json.asBool : Json → Option Bool
  | .bool b => some b
  | _ => none

def Json.asArr : Json → Option (List Json)
  | .arr xs => some xs
  | _ => none

/-- Field lookup in a JSON object, first match wins. -/
def jlookup (fields : List (String × Json)) (k : String) : Option Json :=
  (fields.find? (fun p => p.1 == k)).map (fun p => p.2)

/-- Encoding of an `Upgrade` by `JSON.stringify`, fields in declaration order. -/
def encodeUpgrade (u : Upgrade) : Json :=
  .obj [("name", .str u.name), ("purchased", .bool u.purchased),
    ("cost", .num u.cost), ("productionMultiplier", .num u.productionMultiplier),
    ("description", .str u.description)]

/-- Encoding of a `Building` by `JSON.stringify`. -/
def encodeBuilding (b : Building) : Json :=
  .obj [("name", .str b.name), ("count", .num (b.count : ℚ)),
    ("baseCost", .num b.baseCost), ("baseProduction", .num b.baseProduction),
    ("upgrades", .arr (b.upgrades.map encodeUpgrade))]

/-- Encoding of the full `GameState` by `JSON.stringify`. -/
def encodeGameState (s : GameState) : Json :=
  .obj [("points", .num s.points), ("totalPointsEarned", .num s.totalPointsEarned),
    ("clickPower", .num s.clickPower),
    ("buildings", .arr (s.buildings.map encodeBuilding)),
    ("lastSaved", .num (s.lastSaved : ℚ))]

/-- Reading an `Upgrade` back out of a parsed JSON document. -/
def decodeUpgrade (j : Json) : Option Upgrade :=
  match j with
  | .obj o => do
      let nm ← (jlookup o ("name")).bind Json.asStr
      let pu ← (jlookup o ("purchased")).bind Json.asBool
      let c ← (jlookup o ("cost")).bind Json.asNum
      let pm ← (jlookup o ("productionMultiplier")).bind Json.asNum
      let ds ← (jlookup o ("description")).bind Json.asStr
      pure { name := nm, purchased := pu, cost := c,
             productionMultiplier := pm, description := ds }
  | _ => none

/-- Reading a `Building` back out of a parsed JSON document. -/
def decodeBuilding (j : Json) : Option Building :=
  match j with
  | .obj o => do
      let nm ← (jlookup o ("name")).bind Json.asStr
      let ct ← (jlookup o ("count")).bind Json.asNum
      let bc ← (jlookup o ("baseCost")).bind Json.asNum
      let bp ← (jlookup o ("baseProduction")).bind Json.asNum
      let usj ← (jlookup o ("upgrades")).bind Json.asArr
      let us ← usj.mapM decodeUpgrade
      pure { name := nm, count := (⌊ct⌋).toNat, baseCost := bc,
             baseProduction := bp, upgrades := us }
  | _ => none

/-- Reading a `GameState` back out of a parsed JSON document. -/
def decodeGameState (j : Json) : Option GameState :=
  match j with
  | .obj o => do
      let p ← (jlookup o ("points")).bind Json.asNum
      let t ← (jlookup o ("totalPointsEarned")).bind Json.asNum
      let cp ← (jlookup o ("clickPower")).bind Json.asNum
      let bsj ← (jlookup o ("buildings")).bind Json.asArr
      let bs ← bsj.mapM decodeBuilding
      let ls ← (jlookup o ("lastSaved")).bind Json.asNum
      pure { points := p, totalPointsEarned := t, clickPower := cp,
             buildings := bs, lastSaved := ⌊ls⌋ }
  | _ => none

/-- The save file as seen by `loadGame`: absent (`fs.existsSync` false),
present but unparseable (`JSON.parse` throws, caught by the `try/catch`),
or present and parsing to a JSON document. -/
inductive SaveFile where
  | absent
  | corrupt
  | content (j : Json)

/-- Source `saveGame`: stamps `lastSaved := Date.now()` and writes the serialized
state; returns the written file together with the (stamped) in-memory
state. -/
def saveGame (s : GameState) (now : ℤ) : SaveFile × GameState :=
  let s2 := { s with lastSaved := now }
  (SaveFile.content (encodeGameState s2), s2)

/-- Source `loadGame`: absent file → `false`, state untouched; unparseable file →
the exception is caught, `false`, state untouched; parsed file → `true` and
the in-memory state is replaced wholesale by the parsed snapshot.  (The
source assigns whatever `JSON.parse` returned with no shape validation; a
document that does not carry the `GameState` shape is not representable in
the typed in-memory state, so it is modelled by keeping the old state —
no claim under verification exercises that branch.) -/
def loadGame (file : SaveFile) (s : GameState) : Bool × GameState :=
  match file with
  | .absent => (false, s)
  | .corrupt => (false, s)
  | .content j => (true, (decodeGameState j).getD s)

lemma decode_encode_upgrade (u : Upgrade) :
    decodeUpgrade (encodeUpgrade u) = some u := rfl

lemma mapM_decode_encode_upgrades (us : List Upgrade) :
    (us.map encodeUpgrade).mapM decodeUpgrade = some us := by
  induction us with
  | nil => rfl
  | cons u us ih =>
    simp only [List.map_cons, List.mapM_cons, decode_encode_upgrade, ih]
    rfl

lemma floor_natCast_toNat (n : ℕ) : (⌊((n : ℚ) : ℚ)⌋).toNat = n := by
  rw [Int.floor_natCast]
  exact Int.toNat_ofNat n

lemma decode_encode_building (b : Building) :
    decodeBuilding (encodeBuilding b) = some b := by
  cases b with
  | mk nm ct bc bp us =>
    have h1 : decodeBuilding (encodeBuilding ⟨nm, ct, bc, bp, us⟩)
        = ((us.map encodeUpgrade).mapM decodeUpgrade).bind (fun us2 =>
            some { name := nm, count := (⌊((ct : ℚ) : ℚ)⌋).toNat, baseCost := bc, baseProduction := bp, upgrades := us2 }) := rfl
    rw [h1, mapM_decode_encode_upgrades, Option.some_bind, floor_natCast_toNat]

lemma mapM_decode_encode_buildings (bs : List Building) :
    (bs.map encodeBuilding).mapM decodeBuilding = some bs := by
  induction bs with
  | nil => rfl
  | cons b bs ih =>
    simp only [List.map_cons, List.mapM_cons, decode_encode_building, ih]
    rfl

lemma decode_encode_state (s : GameState) :
    decodeGameState (encodeGameState s) = some s := by
  cases s with
  | mk p t cp bs ls =>
    have h1 : decodeGameState (encodeGameState ⟨p, t, cp, bs, ls⟩)
        = ((bs.map encodeBuilding).mapM decodeBuilding).bind (fun bs2 =>
            some { points := p, totalPointsEarned := t, clickPower := cp, buildings := bs2, lastSaved := ⌊((ls : ℚ) : ℚ)⌋ }) := rfl
    rw [h1, mapM_decode_encode_buildings, Option.some_bind, Int.floor_intCast]

/-- C4: saving and then loading reproduces the saved state: the load
succeeds, and `points`, every building's `count` and every upgrade's
`purchased` flag are preserved exactly (the whole state is reproduced, with
`lastSaved` stamped by the save). -/
theorem save_load_roundtrip (s s0 : GameState) (now : ℤ) :
    loadGame (saveGame s now).1 s0 = (true, { s with lastSaved := now }) ∧
    (loadGame (saveGame s now).1 s0).2.points = s.points ∧
    (loadGame (saveGame s now).1 s0).2.buildings.map Building.count
      = s.buildings.map Building.count ∧
    (loadGame (saveGame s now).1 s0).2.buildings.map
        (fun b => b.upgrades.map (fun u => u.purchased))
      = s.buildings.map (fun b => b.upgrades.map (fun u => u.purchased)) := by
  have h : loadGame (saveGame s now).1 s0 = (true, { s with lastSaved := now }) := by
    show (true, (decodeGameState (encodeGameState { s with lastSaved := now })).getD s0)
      = (true, { s with lastSaved := now })
    rw [decode_encode_state]
    rfl
  refine ⟨h, ?_, ?_, ?_⟩ <;> rw [h]

/-- C5: `loadGame` is all-or-nothing: an absent save file yields failure
("no save found") with the in-memory state untouched, and a corrupt
(unparseable) save file yields failure with the in-memory state untouched. -/
theorem loadGame_all_or_nothing (s : GameState) :
    loadGame SaveFile.absent s = (false, s) ∧
    loadGame SaveFile.corrupt s = (false, s) :=
  ⟨rfl, rfl⟩

/-- Left-pad a digit string with zeros to `d` characters. -/
def padZeros (s : String) (d : ℕ) : String :=
  String.mk (List.replicate (d - s.length) '0') ++ s

/-- Model of `Number.prototype.toFixed(d)` for the non-negative inputs the game
displays: ECMA-262 picks the integer `m` with `m / 10^d` closest to `x`,
the larger `m` on ties, i.e. `m = ⌊x * 10^d + 1/2⌋` for `x ≥ 0`, and prints
it with `d` digits after the decimal point. -/
def toFixed (x : ℚ) (d : ℕ) : String :=
  let m : ℕ := (⌊x * 10 ^ d + 1 / 2⌋).toNat
  (toString (m / 10 ^ d)) ++ "." ++ padZeros (toString (m % 10 ^ d)) d

/-- Source `formatNumber`: the four-range abbreviated display format. -/
def formatNumber (num : ℚ) : String :=
  if num < 1000 then toFixed num 1
  else if num < 1000000 then toFixed (num / 1000) 2 ++ "K"
  else if num < 1000000000 then toFixed (num / 1000000) 2 ++ "M"
  else toFixed (num / 1000000000) 2 ++ "B"

/-- C9: for non-negative `n` the formatter renders `n` to 1 decimal place
below 1,000; `n/1,000` to 2 decimals with suffix K on `[1,000, 1,000,000)`;
`n/1,000,000` with suffix M on `[1,000,000, 1,000,000,000)`; and
`n/1,000,000,000` with suffix B above; the lower bounds are inclusive:
exactly 1,000 renders "1.00K", exactly 1,000,000 renders "1.00M" and
exactly 1,000,000,000 renders "1.00B". -/
theorem formatNumber_ranges (n : ℚ) (hn : 0 ≤ n) :
    (n < 1000 → formatNumber n = toFixed n 1) ∧
    (1000 ≤ n → n < 1000000 → formatNumber n = toFixed (n / 1000) 2 ++ "K") ∧
    (1000000 ≤ n → n < 1000000000 → formatNumber n = toFixed (n / 1000000) 2 ++ "M") ∧
    (1000000000 ≤ n → formatNumber n = toFixed (n / 1000000000) 2 ++ "B") ∧
    formatNumber 1000 = "1.00K" ∧
    formatNumber 1000000 = "1.00M" ∧
    formatNumber 1000000000 = "1.00B" := by
  refine ⟨?_, ?_, ?_, ?_, ?_, ?_, ?_⟩
  · intro h
    rw [formatNumber, if_pos h]
  · intro h1 h2
    rw [formatNumber, if_neg (not_lt.mpr h1), if_pos h2]
  · intro h1 h2
    rw [formatNumber, if_neg (not_lt.mpr (by linarith)), if_neg (not_lt.mpr h1),
      if_pos h2]
  · intro h1
    rw [formatNumber, if_neg (not_lt.mpr (by linarith)),
      if_neg (not_lt.mpr (by linarith)), if_neg (not_lt.mpr h1)]
  · with_unfolding_all decide
  · with_unfolding_all decide
  · with_unfolding_all decide

/-- Witness for C9 at `n = 1000`. -/
theorem formatNumber_ranges_witness :
    (0 : ℚ) ≤ 1000 ∧
    (((1000 : ℚ) < 1000 → formatNumber 1000 = toFixed 1000 1) ∧
    ((1000 : ℚ) ≤ 1000 → (1000 : ℚ) < 1000000 →
      formatNumber 1000 = toFixed (1000 / 1000) 2 ++ "K") ∧
    ((1000000 : ℚ) ≤ 1000 → (1000 : ℚ) < 1000000000 →
      formatNumber 1000 = toFixed (1000 / 1000000) 2 ++ "M") ∧
    ((1000000000 : ℚ) ≤ 1000 → formatNumber 1000 = toFixed (1000 / 1000000000) 2 ++ "B") ∧
    formatNumber 1000 = "1.00K" ∧
    formatNumber 1000000 = "1.00M" ∧
    formatNumber 1000000000 = "1.00B") :=
  ⟨by norm_num, formatNumber_ranges 1000 (by norm_num)⟩

end Clicker
